import Mathlib

/-!
Verification of the deployment-webhook server (`src/server.js`) against its
natural-language specification.  The JavaScript program is shallowly embedded:
machine-level byte strings are `List Nat` (each element `< 256` in practice),
external subprocess outcomes are supplied by an oracle, and the HTTP handler
is a pure function from a request plus environment to a response, the new
lock state and a trace of observable events.
-/

/-! ## Bytes, 32-bit words, SHA-256, HMAC (Node `crypto` collaborator) -/

/-- Truncate to a 32-bit word. -/
def w32 (n : Nat) : Nat := n % 4294967296

/-- 32-bit right rotation. -/
def rotr (n x : Nat) : Nat := w32 ((x >>> n) ||| (x <<< (32 - n)))

/-- 32-bit bitwise complement. -/
def compl32 (x : Nat) : Nat := 4294967295 - x

/-- The 64 SHA-256 round constants. -/
def sha256K : List Nat :=
  [1116352408, 1899447441, 3049323471, 3921009573, 961987163,
   1508970993, 2453635748, 2870763221, 3624381080, 310598401,
   607225278, 1426881987, 1925078388, 2162078206, 2614888103,
   3248222580, 3835390401, 4022224774, 264347078, 604807628,
   770255983, 1249150122, 1555081692, 1996064986, 2554220882,
   2821834349, 2952996808, 3210313671, 3336571891, 3584528711,
   113926993, 338241895, 666307205, 773529912, 1294757372,
   1396182291, 1695183700, 1986661051, 2177026350, 2456956037,
   2730485921, 2820302411, 3259730800, 3345764771, 3516065817,
   3600352804, 4094571909, 275423344, 430227734, 506948616,
   659060556, 883997877, 958139571, 1322822218, 1537002063,
   1747873779, 1955562222, 2024104815, 2227730452, 2361852424,
   2428436474, 2756734187, 3204031479, 3329325298]

/-- Working state of the SHA-256 compression function. -/
structure Hash8 where
  a : Nat
  b : Nat
  c : Nat
  d : Nat
  e : Nat
  f : Nat
  g : Nat
  h : Nat

/-- Initial SHA-256 hash value. -/
def sha256H0 : Hash8 :=
  ⟨1779033703, 3144134277, 1013904242, 2773480762,
   1359893119, 2600822924, 528734635, 1541459225⟩

/-- One SHA-256 round: `kw` is the pair (round constant, schedule word). -/
def compressRound (st : Hash8) (kw : Nat × Nat) : Hash8 :=
  let s1 := rotr 6 st.e ^^^ rotr 11 st.e ^^^ rotr 25 st.e
  let ch := (st.e &&& st.f) ^^^ (compl32 st.e &&& st.g)
  let t1 := w32 (st.h + s1 + ch + kw.1 + kw.2)
  let s0 := rotr 2 st.a ^^^ rotr 13 st.a ^^^ rotr 22 st.a
  let mj := (st.a &&& st.b) ^^^ (st.a &&& st.c) ^^^ (st.b &&& st.c)
  let t2 := w32 (s0 + mj)
  ⟨w32 (t1 + t2), st.a, st.b, st.c, w32 (st.d + t1), st.e, st.f, st.g⟩

/-- Big-endian packing of bytes into 32-bit words. -/
def bytesToWords : List Nat → List Nat
  | b0 :: b1 :: b2 :: b3 :: rest =>
      ((b0 <<< 24) ||| (b1 <<< 16) ||| (b2 <<< 8) ||| b3) :: bytesToWords rest
  | _ => []

/-- Big-endian unpacking of a 32-bit word into 4 bytes. -/
def wordToBytes (w : Nat) : List Nat :=
  [(w >>> 24) &&& 255, (w >>> 16) &&& 255, (w >>> 8) &&& 255, w &&& 255]

/-- Extend the 16-word message schedule by `n` further words. -/
def scheduleExtend : Nat → Array Nat → Array Nat
  | 0, ws => ws
  | n + 1, ws =>
    let i := ws.size
    let w15 := ws.getD (i - 15) 0
    let w2 := ws.getD (i - 2) 0
    let w16 := ws.getD (i - 16) 0
    let w7 := ws.getD (i - 7) 0
    let s0 := rotr 7 w15 ^^^ rotr 18 w15 ^^^ (w15 >>> 3)
    let s1 := rotr 17 w2 ^^^ rotr 19 w2 ^^^ (w2 >>> 10)
    scheduleExtend n (ws.push (w32 (w16 + s0 + w7 + s1)))

/-- Process one 64-byte chunk. -/
def sha256Chunk (st : Hash8) (chunk : List Nat) : Hash8 :=
  let ws := scheduleExtend 48 (bytesToWords chunk).toArray
  let r := (sha256K.zip ws.toList).foldl compressRound st
  ⟨w32 (st.a + r.a), w32 (st.b + r.b), w32 (st.c + r.c), w32 (st.d + r.d),
   w32 (st.e + r.e), w32 (st.f + r.f), w32 (st.g + r.g), w32 (st.h + r.h)⟩

/-- SHA-256 message padding. -/
def sha256Pad (msg : List Nat) : List Nat :=
  let len := msg.length
  let bitLen := len * 8
  let zeros := (120 - (len + 1) % 64) % 64
  msg ++ [128] ++ List.replicate zeros 0 ++
    [(bitLen >>> 56) &&& 255, (bitLen >>> 48) &&& 255, (bitLen >>> 40) &&& 255,
     (bitLen >>> 32) &&& 255, (bitLen >>> 24) &&& 255, (bitLen >>> 16) &&& 255,
     (bitLen >>> 8) &&& 255, bitLen &&& 255]

/-- Split a byte string into 64-byte chunks (fuel-indexed structural
recursion; each step consumes at least one byte, so the input length is
enough fuel). -/
def chunks64Fuel : Nat → List Nat → List (List Nat)
  | 0, _ => []
  | _, [] => []
  | fuel + 1, b :: rest => (b :: rest).take 64 :: chunks64Fuel fuel ((b :: rest).drop 64)

/-- Split a byte string into 64-byte chunks. -/
def chunks64 (l : List Nat) : List (List Nat) := chunks64Fuel l.length l

/-- SHA-256 of a byte string, as a 32-byte digest. -/
def sha256 (msg : List Nat) : List Nat :=
  let st := (chunks64 (sha256Pad msg)).foldl sha256Chunk sha256H0
  wordToBytes st.a ++ wordToBytes st.b ++ wordToBytes st.c ++ wordToBytes st.d ++
    wordToBytes st.e ++ wordToBytes st.f ++ wordToBytes st.g ++ wordToBytes st.h

/-- HMAC-SHA256 (`crypto.createHmac("sha256", secret).update(payload)`). -/
def hmacSha256 (key msg : List Nat) : List Nat :=
  let k0 := if 64 < key.length then sha256 key else key
  let kPad := k0 ++ List.replicate (64 - k0.length) 0
  let ipad := kPad.map (fun b => b ^^^ 54)
  let opad := kPad.map (fun b => b ^^^ 92)
  sha256 (opad ++ sha256 (ipad ++ msg))

/-- ASCII code of a lowercase hex digit. -/
def hexDigitByte (n : Nat) : Nat := if n < 10 then 48 + n else 87 + n

/-- Lowercase hex rendering of a byte string, as ASCII bytes (`.digest("hex")`). -/
def hexAscii (bytes : List Nat) : List Nat :=
  (bytes.map (fun b => [hexDigitByte (b / 16), hexDigitByte (b % 16)])).flatten

/-- UTF-8/ASCII code points of a string, as bytes. -/
def asciiBytes (s : String) : List Nat := s.data.map Char.toNat

/-! ## Signature verifier (`verifySignature`, src/server.js lines 143-162) -/

/-- A JavaScript header value: `req.headers[...]` is `undefined`, a string
(modelled as its bytes), or an array of strings. -/
inductive HeaderVal
  | undef
  | str (s : List Nat)
  | strList (l : List (List Nat))
deriving DecidableEq

/-- JavaScript truthiness of a header value: `undefined` and the empty
string are falsy; any array (even empty) is truthy. -/
def jsFalsyHeader : HeaderVal → Bool
  | HeaderVal.undef => true
  | HeaderVal.str s => s.isEmpty
  | HeaderVal.strList _ => false

/-- `crypto.timingSafeEqual`: throws on buffers of different length,
otherwise reports byte-for-byte equality. -/
def jsTimingSafeEqual (a b : List Nat) : Except String Bool :=
  if a.length ≠ b.length then
    Except.error "Input buffers must have the same byte length"
  else
    Except.ok (a == b)

/-- The expected token: `"sha256=" + hmacSha256(secret, payload) in hex`
(src/server.js lines 145-146). -/
def expectedSignatureBytes (secret payload : List Nat) : List Nat :=
  asciiBytes "sha256=" ++ hexAscii (hmacSha256 secret payload)

/-- Body of `verifySignature` inside its `try` block: compute the expected
token, return `false` for a missing or non-string header, return `false` on
length mismatch, else compare with `crypto.timingSafeEqual`.  The result is
`Except` so that a thrown exception is visible to the surrounding `catch`. -/
def verifySignatureBody (payload : List Nat) (signature : HeaderVal)
    (secret : List Nat) : Except String Bool :=
  let expected := expectedSignatureBytes secret payload
  match signature with
  | HeaderVal.undef => Except.ok false
  | HeaderVal.strList _ => Except.ok false
  | HeaderVal.str s =>
    if s.isEmpty then Except.ok false
    else if s.length ≠ expected.length then Except.ok false
    else jsTimingSafeEqual s expected

/-- `verifySignature` (src/server.js lines 143-162): the `try`/`catch`
collapses any thrown exception to `false`. -/
def verifySignature (payload : List Nat) (signature : HeaderVal)
    (secret : List Nat) : Bool :=
  match verifySignatureBody payload signature secret with
  | Except.ok b => b
  | Except.error _ => false

/-! ## JSON values (`express.json` body and `JSON.stringify`) -/

/-- A JSON value, as produced by `JSON.parse` (numbers restricted to
integers, which covers the payloads at issue). -/
inductive JsonVal
  | null
  | bool (b : Bool)
  | num (n : Int)
  | str (s : String)
  | arr (l : List JsonVal)
  | obj (l : List (String × JsonVal))

/-- ASCII double quote. -/
def quoteChar : Char := Char.ofNat 34

/-- ASCII backslash. -/
def backslashChar : Char := Char.ofNat 92

/-- Escape a character for a JSON string literal (quotes and backslashes;
other characters are emitted verbatim). -/
def escapeJsonChar (c : Char) : List Char :=
  if c = quoteChar ∨ c = backslashChar then [backslashChar, c] else [c]

/-- A JSON string literal: quoted and escaped. -/
def quoteJsonString (s : String) : String :=
  String.mk ([quoteChar] ++ (s.data.map escapeJsonChar).flatten ++ [quoteChar])

mutual

/-- `JSON.stringify` of a parsed value: compact rendering, no whitespace,
object members in insertion order. -/
def stringifyJson : JsonVal → String
  | JsonVal.null => "null"
  | JsonVal.bool true => "true"
  | JsonVal.bool false => "false"
  | JsonVal.num n => toString n
  | JsonVal.str s => quoteJsonString s
  | JsonVal.arr l => "[" ++ stringifyElems l ++ "]"
  | JsonVal.obj l => "\x7b" ++ stringifyMembers l ++ "\x7d"

/-- Comma-separated rendering of array elements. -/
def stringifyElems : List JsonVal → String
  | [] => ""
  | [v] => stringifyJson v
  | v :: rest => stringifyJson v ++ "," ++ stringifyElems rest

/-- Comma-separated rendering of object members. -/
def stringifyMembers : List (String × JsonVal) → String
  | [] => ""
  | [(k, v)] => quoteJsonString k ++ ":" ++ stringifyJson v
  | (k, v) :: rest =>
      quoteJsonString k ++ ":" ++ stringifyJson v ++ "," ++ stringifyMembers rest

end

/-- Property lookup on a parsed body: `body.f` is the first member named `f`
of an object, `undefined` (`none`) otherwise. -/
def jsLookupField (v : JsonVal) (f : String) : Option JsonVal :=
  match v with
  | JsonVal.obj l =>
    match l.find? (fun kv => kv.1 = f) with
    | some kv => some kv.2
    | none => none
  | _ => none

/-! ## A model of `JSON.parse` (the `express.json` boundary collaborator)

`express.json` consumes the raw wire bytes and hands the handler the parsed
value; it is modelled here by a fuel-indexed recursive-descent parser over
the characters of the wire body. -/

/-- ASCII opening brace. -/
def braceOpen : Char := Char.ofNat 123

/-- ASCII closing brace. -/
def braceClose : Char := Char.ofNat 125

/-- Skip JSON whitespace. -/
def skipWs : List Char → List Char
  | [] => []
  | c :: rest =>
    if c = ' ' ∨ c = Char.ofNat 9 ∨ c = Char.ofNat 10 ∨ c = Char.ofNat 13 then
      skipWs rest
    else c :: rest

/-- Parse the remainder of a JSON string literal (after the opening quote),
handling `\"` and `\\` escapes. -/
def parseStringRest : List Char → Option (String × List Char)
  | [] => none
  | c :: rest =>
    if c = quoteChar then some ("", rest)
    else if c = backslashChar then
      match rest with
      | [] => none
      | e :: rest2 =>
        if e = quoteChar ∨ e = backslashChar then
          match parseStringRest rest2 with
          | some (s, r) => some (String.mk (e :: s.data), r)
          | none => none
        else none
    else
      match parseStringRest rest with
      | some (s, r) => some (String.mk (c :: s.data), r)
      | none => none

/-- Parse a run of decimal digits into a natural number. -/
def parseDigits (acc : Nat) : List Char → Option (Nat × List Char)
  | [] => some (acc, [])
  | c :: rest =>
    if c.isDigit then
      match parseDigits (acc * 10 + (c.toNat - 48)) rest with
      | some r => some r
      | none => none
    else some (acc, c :: rest)

mutual

/-- Parse one JSON value (fuel-indexed). -/
def parseJsonVal : Nat → List Char → Option (JsonVal × List Char)
  | 0, _ => none
  | fuel + 1, input =>
    match skipWs input with
    | [] => none
    | c :: rest =>
      if c = quoteChar then
        match parseStringRest rest with
        | some (s, r) => some (JsonVal.str s, r)
        | none => none
      else if c = braceOpen then parseJsonObj fuel (skipWs rest) true
      else if c = '[' then parseJsonArr fuel (skipWs rest) true
      else if c = 't' then
        match rest with
        | 'r' :: 'u' :: 'e' :: r => some (JsonVal.bool true, r)
        | _ => none
      else if c = 'f' then
        match rest with
        | 'a' :: 'l' :: 's' :: 'e' :: r => some (JsonVal.bool false, r)
        | _ => none
      else if c = 'n' then
        match rest with
        | 'u' :: 'l' :: 'l' :: r => some (JsonVal.null, r)
        | _ => none
      else if c = '-' then
        match parseDigits 0 rest with
        | some (n, r) => if rest.length ≠ r.length then some (JsonVal.num (-(n : Int)), r) else none
        | none => none
      else if c.isDigit then
        match parseDigits (c.toNat - 48) rest with
        | some (n, r) => some (JsonVal.num (n : Int), r)
        | none => none
      else none

/-- Parse the members of a JSON object after `\x7b`; `first` marks whether no
member has been consumed yet. -/
def parseJsonObj : Nat → List Char → Bool → Option (JsonVal × List Char)
  | 0, _, _ => none
  | fuel + 1, input, first =>
    match skipWs input with
    | [] => none
    | c :: rest =>
      if c = braceClose ∧ first then some (JsonVal.obj [], rest)
      else
        if c = quoteChar then
          match parseStringRest rest with
          | some (k, r1) =>
            match skipWs r1 with
            | ':' :: r2 =>
              match parseJsonVal fuel r2 with
              | some (v, r3) =>
                match skipWs r3 with
                | ',' :: r4 =>
                  (match parseJsonObj fuel r4 false with
                   | some (JsonVal.obj l, r5) => some (JsonVal.obj ((k, v) :: l), r5)
                   | _ => none)
                | d :: r4 =>
                  if d = braceClose then some (JsonVal.obj [(k, v)], r4) else none
                | [] => none
              | none => none
            | _ => none
          | none => none
        else none

/-- Parse the elements of a JSON array after `[`; `first` marks whether no
element has been consumed yet. -/
def parseJsonArr : Nat → List Char → Bool → Option (JsonVal × List Char)
  | 0, _, _ => none
  | fuel + 1, input, first =>
    match skipWs input with
    | [] => none
    | c :: rest =>
      if c = ']' ∧ first then some (JsonVal.arr [], rest)
      else
        match parseJsonVal fuel (c :: rest) with
        | some (v, r1) =>
          match skipWs r1 with
          | ',' :: r2 =>
            (match parseJsonArr fuel r2 false with
             | some (JsonVal.arr l, r3) => some (JsonVal.arr (v :: l), r3)
             | _ => none)
          | ']' :: r2 => some (JsonVal.arr [v], r2)
          | _ => none
        | none => none

end

/-- `JSON.parse` over the raw wire characters: the whole input must be one
JSON value, up to surrounding whitespace. -/
def jsonParse (raw : List Char) : Option JsonVal :=
  match parseJsonVal (raw.length + 1) raw with
  | some (v, rest) => if skipWs rest = [] then some v else none
  | none => none

/-! ## Branch derivation (src/server.js line 236) -/

/-- JavaScript `String.prototype.replace` with a string pattern: replace the
first occurrence of `pat` (if any) by `repl`, character-level. -/
def replaceFirstChars (pat repl : List Char) : List Char → List Char
  | [] => if pat.isPrefixOf ([] : List Char) then repl else []
  | c :: rest =>
    if pat.isPrefixOf (c :: rest) then repl ++ (c :: rest).drop pat.length
    else c :: replaceFirstChars pat repl rest

/-- JavaScript `s.replace(pat, repl)` on strings. -/
def jsReplaceFirst (s pat repl : String) : String :=
  String.mk (replaceFirstChars pat.data repl.data s.data)

/-- The `ref` field of the parsed body, when it is a string
(`req.body.ref`). -/
def jsRef (body : JsonVal) : Option String :=
  match jsLookupField body "ref" with
  | some (JsonVal.str s) => some s
  | _ => none

/-- Effective branch (src/server.js line 236):
`req.body.ref ? req.body.ref.replace("refs/heads/", "") : project.branch`.
A present but empty `ref` is falsy in JavaScript and falls back to the
configured branch. -/
def effectiveBranch (refField : Option String) (configured : String) : String :=
  match refField with
  | some r => if r = "" then configured else jsReplaceFirst r "refs/heads/" ""
  | none => configured

/-- Modelled from the wording of the spec ("strip the `refs/heads/` prefix"): remove
the substring only when it is a leading prefix.  Used solely to compare the
description in the spec with the `replace`-based derivation in the source. -/
def stripHeadsLeading (r : String) : String :=
  if "refs/heads/".data.isPrefixOf r.data then
    String.mk (r.data.drop "refs/heads/".data.length)
  else r

/-- Number of (possibly overlapping) occurrences of `pat` in `s`. -/
def countOccur (pat : List Char) : List Char → Nat
  | [] => 0
  | c :: rest => (if pat.isPrefixOf (c :: rest) then 1 else 0) + countOccur pat rest

/-! ## Command runner and deployment pipeline (src/server.js lines 106-215) -/

/-- Worldly outcome of one subprocess invocation, as seen by `execPromise`:
either the child closed with an exit code (and accumulated stdout/stderr), or
a process-level error (spawn failure or timeout kill). -/
inductive ExecOutcome
  | exit (code : Nat) (stdout stderr : String)
  | procError (msg : String)

/-- `execPromise` (src/server.js lines 106-140): resolves with stdout on exit
code 0, rejects with `Command failed with code ...` otherwise, and rejects
with the process error when the child could not run. -/
def execPromise (outcome : ExecOutcome) : Except String String :=
  match outcome with
  | ExecOutcome.exit code out err =>
    if code = 0 then Except.ok out
    else Except.error ("Command failed with code " ++ toString code ++ ": " ++ err)
  | ExecOutcome.procError m => Except.error m

/-- The shell commands the pipeline issues. -/
inductive Cmd
  | gitFetch
  | gitReset (branch : String)
  | npmInstall
  | npmBuild
  | pm2Restart (name : String)
deriving DecidableEq

/-- Configuration of one project (loaded at startup, immutable). -/
structure ProjectConfig where
  dir : String
  pm2Name : String
  secret : List Nat
  branch : String

/-- Filesystem facts the pipeline consults: whether the project directory
exists, whether `package.json` exists, and the outcome of reading and parsing
it (`Except.ok hasBuild`, or the thrown read/parse error). -/
structure FsEnv where
  dirExists : Bool
  manifestExists : Bool
  manifestHasBuild : Except String Bool

/-- Sequencing state of a pipeline run: index of the next `execPromise` call
(used to consult the oracle) and the trace of commands issued so far. -/
structure RunSt where
  k : Nat
  trace : List Cmd
deriving DecidableEq

/-- Issue one command: consult the oracle for the outcome of the `k`-th
subprocess and record the command in the trace. -/
def runCmd (exe : Nat → ExecOutcome) (c : Cmd) (st : RunSt) :
    Except String String × RunSt :=
  (execPromise (exe st.k), ⟨st.k + 1, st.trace ++ [c]⟩)

/-- The `try` block of `deployProject` (src/server.js lines 178-201): fetch,
hard reset, install, conditional build, then the primary pm2 restart; any
rejection aborts the remaining steps. -/
def deployTryBody (cfg : ProjectConfig) (projectName branch : String)
    (fsEnv : FsEnv) (exe : Nat → ExecOutcome) (st : RunSt) :
    Except String String × RunSt :=
  match runCmd exe Cmd.gitFetch st with
  | (Except.error e, st1) => (Except.error e, st1)
  | (Except.ok _, st1) =>
    match runCmd exe (Cmd.gitReset branch) st1 with
    | (Except.error e, st2) => (Except.error e, st2)
    | (Except.ok _, st2) =>
      match runCmd exe Cmd.npmInstall st2 with
      | (Except.error e, st3) => (Except.error e, st3)
      | (Except.ok _, st3) =>
        let buildStep : Except String String × RunSt :=
          if fsEnv.manifestExists then
            match fsEnv.manifestHasBuild with
            | Except.error e => (Except.error e, st3)
            | Except.ok true => runCmd exe Cmd.npmBuild st3
            | Except.ok false => (Except.ok "", st3)
          else (Except.ok "", st3)
        match buildStep with
        | (Except.error e, st4) => (Except.error e, st4)
        | (Except.ok _, st4) =>
          match runCmd exe (Cmd.pm2Restart cfg.pm2Name) st4 with
          | (Except.error e, st5) => (Except.error e, st5)
          | (Except.ok _, st5) =>
            (Except.ok ("Successfully deployed " ++ projectName), st5)

/-- `deployProject` (src/server.js lines 164-215): look the project up,
require its directory to exist, run the `try` block, and on failure issue the
best-effort recovery pm2 restart whose own failure is swallowed; the original
error is rethrown.  Returns the outcome and the full command trace. -/
def deployProject (projects : String → Option ProjectConfig)
    (projectName branch : String) (fsEnv : FsEnv) (exe : Nat → ExecOutcome) :
    Except String String × List Cmd :=
  match projects projectName with
  | none => (Except.error ("Project " ++ projectName ++ " not configured"), [])
  | some cfg =>
    if fsEnv.dirExists = false then
      (Except.error ("Project directory " ++ cfg.dir ++ " does not exist"), [])
    else
      match deployTryBody cfg projectName branch fsEnv exe ⟨0, []⟩ with
      | (Except.ok msg, st) => (Except.ok msg, st.trace)
      | (Except.error e, st) =>
        let recov := runCmd exe (Cmd.pm2Restart cfg.pm2Name) st
        (Except.error e, recov.2.trace)

/-! ## Deployment lock (src/server.js lines 87-104) -/

/-- `acquireLock`: reject when a deployment is in flight, otherwise set the
flag.  Returns the new flag value on success.  The check-and-set runs
synchronously inside the promise executor, hence atomically with respect to
the event loop. -/
def acquireLock (isDeploying : Bool) : Except String Bool :=
  if isDeploying then Except.error "Another deployment is in progress"
  else Except.ok true

/-- `releaseLock`: unconditionally clear the flag. -/
def releaseLock (_ : Bool) : Bool := false

/-! ## Request handler (`app.post("/deploy/:projectName")`, lines 217-256) -/

/-- One inbound deploy request: the path parameter, the
`x-hub-signature-256` header value, and the parsed JSON body that
`express.json` produced from the wire bytes. -/
structure DeployRequest where
  projectName : String
  sigHeader : HeaderVal
  body : JsonVal

/-- The JSON shapes of the handler responses. -/
inductive RespBody
  | err (msg : String)
  | message (msg : String)
  | success (msg : String)
  | failure (errMsg : String)
deriving DecidableEq

/-- Observable side effects of handling one request: an invocation of the
signature verifier, or a subprocess invocation. -/
inductive Event
  | sigCheck
  | exec (c : Cmd)
deriving DecidableEq

/-- Result of handling one request: HTTP status, response body, the lock
flag after the handler finished, and the event trace. -/
structure HandlerResult where
  status : Nat
  body : RespBody
  lock : Bool
  events : List Event
deriving DecidableEq

/-- `error.message || "Deployment failed"`: an empty message is falsy. -/
def jsErrMsg (e : String) : String := if e = "" then "Deployment failed" else e

/-- The byte string the handler feeds to the signature verifier
(src/server.js line 228): `JSON.stringify(req.body)` — the re-serialized
parsed body, not the wire bytes. -/
def hmacPayload (body : JsonVal) : List Nat := asciiBytes (stringifyJson body)

/-- The deploy endpoint handler (src/server.js lines 218-256): project
lookup, signature check, branch filter, lock acquisition, pipeline
invocation, release, response. -/
def handleDeploy (projects : String → Option ProjectConfig)
    (isDeploying : Bool) (req : DeployRequest) (fsEnv : FsEnv)
    (exe : Nat → ExecOutcome) : HandlerResult :=
  match projects req.projectName with
  | none => ⟨404, RespBody.err "Project not found", isDeploying, []⟩
  | some project =>
    let payload := hmacPayload req.body
    if jsFalsyHeader req.sigHeader then
      ⟨401, RespBody.err "Invalid signature", isDeploying, []⟩
    else if verifySignature payload req.sigHeader project.secret = false then
      ⟨401, RespBody.err "Invalid signature", isDeploying, [Event.sigCheck]⟩
    else
      let branch := effectiveBranch (jsRef req.body) project.branch
      if branch ≠ project.branch then
        ⟨200,
         RespBody.message
           ("Ignoring deployment: branch " ++ branch ++ " != " ++ project.branch),
         isDeploying, [Event.sigCheck]⟩
      else
        match acquireLock isDeploying with
        | Except.error e =>
          ⟨500, RespBody.failure (jsErrMsg e), releaseLock isDeploying,
           [Event.sigCheck]⟩
        | Except.ok lock1 =>
          match deployProject projects req.projectName branch fsEnv exe with
          | (Except.ok msg, tr) =>
            ⟨200, RespBody.success msg, releaseLock lock1,
             [Event.sigCheck] ++ tr.map Event.exec⟩
          | (Except.error e, tr) =>
            ⟨500, RespBody.failure (jsErrMsg e), releaseLock lock1,
             [Event.sigCheck] ++ tr.map Event.exec⟩

/-! ## Interleaved executions of concurrent deploy requests

The Node event loop interleaves the `await` points of concurrent handler
invocations; the check-and-set in `acquireLock` is a single synchronous step.  A
system state is the shared `isDeploying` flag plus the phase of each handler
that has passed the filters and is about to take the lock. -/

/-- Phase of one handler after the branch filter: about to call
`acquireLock`; deploying (lock acquisition succeeded, pipeline in flight);
rejected (lock acquisition failed, `catch` block pending); finished. -/
inductive HPhase
  | start
  | deploying
  | rejected
  | done
deriving DecidableEq

/-- Shared state of the process: the lock flag and the handler phases. -/
structure LockSys where
  lock : Bool
  handlers : List HPhase
deriving DecidableEq

/-- One atomic event-loop step of the concurrent system, mirroring
src/server.js lines 91-104 and 243-255. -/
inductive LockStep : LockSys → LockSys → Prop
  | acquireOk (s : LockSys) (i : Nat) (l' : Bool) :
      s.handlers[i]? = some HPhase.start →
      acquireLock s.lock = Except.ok l' →
      LockStep s ⟨l', s.handlers.set i HPhase.deploying⟩
  | acquireRej (s : LockSys) (i : Nat) (e : String) :
      s.handlers[i]? = some HPhase.start →
      acquireLock s.lock = Except.error e →
      LockStep s ⟨s.lock, s.handlers.set i HPhase.rejected⟩
  | rejectFinish (s : LockSys) (i : Nat) :
      s.handlers[i]? = some HPhase.rejected →
      LockStep s ⟨releaseLock s.lock, s.handlers.set i HPhase.done⟩
  | deployFinish (s : LockSys) (i : Nat) :
      s.handlers[i]? = some HPhase.deploying →
      LockStep s ⟨releaseLock s.lock, s.handlers.set i HPhase.done⟩

/-- Reachability under interleaved steps. -/
def LockSteps : LockSys → LockSys → Prop := Relation.ReflTransGen LockStep

/-! ## Concrete instances used by theorems -/

/-- The wire body of a deploy request whose JSON carries whitespace, exactly
as received. -/
def wireBody : List Char := "\x7b \"ref\": \"refs/heads/main\" \x7d".data

/-- The parsed value `express.json` hands the handler for `wireBody`. -/
def wireBodyParsed : JsonVal := JsonVal.obj [("ref", JsonVal.str "refs/heads/main")]

/-- The initial state of three concurrent deploy requests that have passed
the filters, with the lock free. -/
def lockInit3 : LockSys := ⟨false, [HPhase.start, HPhase.start, HPhase.start]⟩

/-- A reachable state in which two deployment pipelines are in flight
simultaneously. -/
def lockBroken : LockSys := ⟨true, [HPhase.deploying, HPhase.done, HPhase.deploying]⟩

/-- The demo project configuration used by concrete runs. -/
def demoConfig : ProjectConfig := ⟨"/var/www/demo", "demo", asciiBytes "s3cr3t", "main"⟩

/-- A configuration mapping holding the single project `demo`. -/
def projectsDemo : String → Option ProjectConfig :=
  fun n => if n = "demo" then some demoConfig else none

/-- A filesystem with the project directory present and no manifest. -/
def fsQuiet : FsEnv := ⟨true, false, Except.ok false⟩

/-- An oracle under which every subprocess succeeds silently. -/
def exeQuiet : Nat → ExecOutcome := fun _ => ExecOutcome.exit 0 "" ""

/-- A body whose `ref` contains `refs/heads/` other than as a prefix. -/
def nestedRefBody : JsonVal := JsonVal.obj [("ref", JsonVal.str "a/refs/heads/b")]

/-- An authenticated request for `demo` carrying `nestedRefBody`: its token
is the expected one for the payload the handler serializes. -/
def nestedRefReq : DeployRequest :=
  ⟨"demo",
   HeaderVal.str (expectedSignatureBytes (asciiBytes "s3cr3t") (hmacPayload nestedRefBody)),
   nestedRefBody⟩

/-- A body whose `ref` names a feature branch. -/
def featureBody : JsonVal := JsonVal.obj [("ref", JsonVal.str "refs/heads/feature-x")]

/-- An authenticated request for `demo` carrying `featureBody`. -/
def featureReq : DeployRequest :=
  ⟨"demo",
   HeaderVal.str (expectedSignatureBytes (asciiBytes "s3cr3t") (hmacPayload featureBody)),
   featureBody⟩

/-! ## Helper lemmas -/

/-- The expected token always begins with byte 115, the letter s. -/
theorem expectedSignature_cons (secret payload : List Nat) :
    ∃ t, expectedSignatureBytes secret payload = 115 :: t := by
  have h : asciiBytes "sha256=" = [115, 104, 97, 50, 53, 54, 61] := by decide
  unfold expectedSignatureBytes
  rw [h]
  exact ⟨_, rfl⟩

/-- The expected token is nonempty. -/
theorem expectedSignature_ne_nil (secret payload : List Nat) :
    expectedSignatureBytes secret payload ≠ [] := by
  obtain ⟨t, ht⟩ := expectedSignature_cons secret payload
  rw [ht]
  exact List.cons_ne_nil _ _

/-- On a string header, the `try` body of the verifier never throws and reports
exactly whether the presented token equals the expected one. -/
theorem verifySignatureBody_str (payload secret tok : List Nat) :
    verifySignatureBody payload (HeaderVal.str tok) secret =
      Except.ok (tok == expectedSignatureBytes secret payload) := by
  unfold verifySignatureBody jsTimingSafeEqual
  by_cases h1 : tok.isEmpty
  · have h1' : tok = [] := List.isEmpty_iff.mp h1
    subst h1'
    have : (([] : List Nat) == expectedSignatureBytes secret payload) = false := by
      rw [beq_eq_false_iff_ne]
      exact fun h => expectedSignature_ne_nil secret payload h.symm
    simp [this]
  · by_cases h2 : tok.length = (expectedSignatureBytes secret payload).length
    · simp [h1, h2]
    · have : (tok == expectedSignatureBytes secret payload) = false := by
        rw [beq_eq_false_iff_ne]
        intro h
        exact h2 (by rw [h])
      simp [h1, h2, this]

/-- The verifier, on a string header, computes equality with the expected
token. -/
theorem verifySignature_str_eq (payload secret tok : List Nat) :
    verifySignature payload (HeaderVal.str tok) secret =
      (tok == expectedSignatureBytes secret payload) := by
  unfold verifySignature
  rw [verifySignatureBody_str]

/-- The verifier accepts the correctly computed token. -/
theorem verifySignature_expected_true (payload secret : List Nat) :
    verifySignature payload
      (HeaderVal.str (expectedSignatureBytes secret payload)) secret = true := by
  rw [verifySignature_str_eq]
  exact beq_self_eq_true _

/-- Claim C4: The signature verifier never signals an exception to its caller:
for every input its `try` body resolves to a boolean, and whenever the
presented token is absent, not a string, or differs in length from the
expected token, the verifier returns `false` without raising. -/
theorem verifier_never_throws (payload secret : List Nat) (sig : HeaderVal) :
    (∃ b, verifySignatureBody payload sig secret = Except.ok b) ∧
    ((sig = HeaderVal.undef ∨ (∃ l, sig = HeaderVal.strList l) ∨
      (∃ s, sig = HeaderVal.str s ∧
        s.length ≠ (expectedSignatureBytes secret payload).length)) →
      verifySignature payload sig secret = false) := by
  constructor
  · cases sig with
    | undef => exact ⟨false, rfl⟩
    | strList l => exact ⟨false, rfl⟩
    | str s => exact ⟨_, verifySignatureBody_str payload secret s⟩
  · intro h
    rcases h with h | ⟨l, h⟩ | ⟨s, h, hlen⟩
    · subst h; rfl
    · subst h; rfl
    · subst h
      rw [verifySignature_str_eq, beq_eq_false_iff_ne]
      intro he
      exact hlen (by rw [he])

/-- Claim C4 witness: an absent token is rejected without raising. -/
theorem verifier_never_throws_witness :
    verifySignature [] HeaderVal.undef [] = false :=
  (verifier_never_throws [] [] HeaderVal.undef).2 (Or.inl rfl)

/-- Claim C5: For every `(secret, payload)` pair, the verifier returns `true`
exactly when the presented token equals
`"sha256=" ++ hex (HMAC-SHA256 (secret, payload))`; in particular it accepts
the correctly computed token and rejects any single-byte mutation of it. -/
theorem verifier_accepts_iff (secret payload tok : List Nat) :
    (verifySignature payload (HeaderVal.str tok) secret = true ↔
      tok = expectedSignatureBytes secret payload) ∧
    verifySignature payload
      (HeaderVal.str (expectedSignatureBytes secret payload)) secret = true ∧
    (∀ i b, (expectedSignatureBytes secret payload).set i b ≠
        expectedSignatureBytes secret payload →
      verifySignature payload
        (HeaderVal.str ((expectedSignatureBytes secret payload).set i b))
        secret = false) := by
  refine ⟨?_, verifySignature_expected_true payload secret, ?_⟩
  · rw [verifySignature_str_eq]
    exact beq_iff_eq
  · intro i b hne
    rw [verifySignature_str_eq, beq_eq_false_iff_ne]
    exact hne

/-- Claim C5 witness: for the empty secret and payload, the correct token is
accepted and mutating its first byte (the s of `"sha256="`, 115) to 120 is
rejected. -/
theorem verifier_accepts_iff_witness :
    verifySignature []
      (HeaderVal.str (expectedSignatureBytes [] [])) [] = true ∧
    verifySignature []
      (HeaderVal.str ((expectedSignatureBytes [] []).set 0 120)) [] = false := by
  have h := verifier_accepts_iff [] [] []
  refine ⟨h.2.1, h.2.2 0 120 ?_⟩
  obtain ⟨t, ht⟩ := expectedSignature_cons [] []
  rw [ht]
  intro hc
  exact absurd (List.head_eq_of_cons_eq hc) (by decide)


/-- Claim C2: The handler does NOT feed the raw wire bytes to the signature
verifier: it re-serializes the parsed body (`JSON.stringify(req.body)`,
src/server.js line 228).  For the wire body `{ "ref": "refs/heads/main" }`
(whitespace included), the bytes the verifier receives differ from the bytes
received on the wire, so a token computed over the wire bytes is rejected. -/
theorem hmac_input_reserialized :
    jsonParse wireBody = some wireBodyParsed ∧
    hmacPayload wireBodyParsed ≠ wireBody.map Char.toNat := by
  constructor
  · rfl
  · decide


/-- Claim C1: Mutual exclusion is violated by the code: request 0 acquires the
lock and deploys; request 1 is rejected, but its `catch` block calls
`releaseLock()`, freeing the lock the running deployment holds (src/server.js
line 249); request 2 then acquires the lock while request 0 is still
deploying, so two pipeline executions are active at the same instant. -/
theorem lock_mutual_exclusion_violated :
    LockSteps lockInit3 lockBroken ∧
    lockBroken.handlers.count HPhase.deploying = 2 := by
  constructor
  · have h1 : LockStep ⟨false, [HPhase.start, HPhase.start, HPhase.start]⟩
        ⟨true, [HPhase.deploying, HPhase.start, HPhase.start]⟩ :=
      LockStep.acquireOk _ 0 true rfl rfl
    have h2 : LockStep ⟨true, [HPhase.deploying, HPhase.start, HPhase.start]⟩
        ⟨true, [HPhase.deploying, HPhase.rejected, HPhase.start]⟩ :=
      LockStep.acquireRej _ 1 "Another deployment is in progress" rfl rfl
    have h3 : LockStep ⟨true, [HPhase.deploying, HPhase.rejected, HPhase.start]⟩
        ⟨false, [HPhase.deploying, HPhase.done, HPhase.start]⟩ :=
      LockStep.rejectFinish _ 1 rfl
    have h4 : LockStep ⟨false, [HPhase.deploying, HPhase.done, HPhase.start]⟩
        ⟨true, [HPhase.deploying, HPhase.done, HPhase.deploying]⟩ :=
      LockStep.acquireOk _ 2 true rfl rfl
    exact Relation.ReflTransGen.head h1 (Relation.ReflTransGen.head h2
      (Relation.ReflTransGen.head h3 (Relation.ReflTransGen.single h4)))
  · decide

/-- Claim C8: Starting from a free lock, handling any deploy request leaves the
lock free, whatever the pipeline outcome. -/
theorem lock_free_after_handling (projects : String → Option ProjectConfig)
    (req : DeployRequest) (fsEnv : FsEnv) (exe : Nat → ExecOutcome) :
    (handleDeploy projects false req fsEnv exe).lock = false := by
  unfold handleDeploy acquireLock releaseLock
  split
  · rfl
  · dsimp only
    split
    · rfl
    · split
      · rfl
      · split
        · rfl
        · simp only [Bool.false_eq_true, if_false]
          split <;> rfl

/-- Claim C9: A request naming an unconfigured project is answered 404 with no
signature evaluation and no subprocess invocation: the event trace is empty
and the lock is untouched. -/
theorem unknown_project_404 (projects : String → Option ProjectConfig)
    (lock0 : Bool) (req : DeployRequest) (fsEnv : FsEnv)
    (exe : Nat → ExecOutcome) (habsent : projects req.projectName = none) :
    handleDeploy projects lock0 req fsEnv exe =
      ⟨404, RespBody.err "Project not found", lock0, []⟩ := by
  unfold handleDeploy
  rw [habsent]

/-- Claim C9 witness: with an empty configuration mapping, a request for `demo`
gets the 404 response, no signature check and no subprocess. -/
theorem unknown_project_404_witness :
    handleDeploy (fun _ => none) false
      ⟨"demo", HeaderVal.undef, JsonVal.null⟩ ⟨true, false, Except.ok false⟩
      (fun _ => ExecOutcome.exit 0 "" "") =
      ⟨404, RespBody.err "Project not found", false, []⟩ :=
  unknown_project_404 (fun _ => none) false
    ⟨"demo", HeaderVal.undef, JsonVal.null⟩ ⟨true, false, Except.ok false⟩
    (fun _ => ExecOutcome.exit 0 "" "") rfl

/-- Claim C3: If the `try` block of the pipeline fails before its primary restart
(i.e. in fetch, reset, install, manifest read, or build), the remaining
primary steps are skipped, exactly one recovery restart is issued, and the
reported error is the original failure — for every oracle, including those
under which the recovery restart itself fails. -/
theorem pipeline_failure_recovery (projects : String → Option ProjectConfig)
    (name branch : String) (fsEnv : FsEnv) (exe : Nat → ExecOutcome)
    (cfg : ProjectConfig) (e : String) (st : RunSt)
    (hlook : projects name = some cfg)
    (hdir : fsEnv.dirExists = true)
    (htry : deployTryBody cfg name branch fsEnv exe ⟨0, []⟩ = (Except.error e, st))
    (hnr : Cmd.pm2Restart cfg.pm2Name ∉ st.trace) :
    deployProject projects name branch fsEnv exe =
      (Except.error e, st.trace ++ [Cmd.pm2Restart cfg.pm2Name]) ∧
    (deployProject projects name branch fsEnv exe).2.count
      (Cmd.pm2Restart cfg.pm2Name) = 1 := by
  have hmain : deployProject projects name branch fsEnv exe =
      (Except.error e, st.trace ++ [Cmd.pm2Restart cfg.pm2Name]) := by
    simp [deployProject, hlook, hdir, htry, runCmd]
  refine ⟨hmain, ?_⟩
  rw [hmain]
  simp [List.count_append, List.count_eq_zero.mpr hnr]

/-- Claim C3 witness: the install step (third subprocess) fails and the recovery
restart also fails; the pipeline still reports the install failure and the
trace ends with the single recovery restart. -/
theorem pipeline_failure_recovery_witness :
    deployProject
      (fun n => if n = "demo" then
        some ⟨"/var/www/demo", "demo", asciiBytes "s3cr3t", "main"⟩ else none)
      "demo" "main" ⟨true, false, Except.ok false⟩
      (fun k => if k < 2 then ExecOutcome.exit 0 "" ""
        else if k = 2 then ExecOutcome.exit 1 "" "npm broke"
        else ExecOutcome.procError "recovery failed") =
      (Except.error "Command failed with code 1: npm broke",
       [Cmd.gitFetch, Cmd.gitReset "main", Cmd.npmInstall, Cmd.pm2Restart "demo"]) :=
  (pipeline_failure_recovery
    (fun n => if n = "demo" then
      some ⟨"/var/www/demo", "demo", asciiBytes "s3cr3t", "main"⟩ else none)
    "demo" "main" ⟨true, false, Except.ok false⟩
    (fun k => if k < 2 then ExecOutcome.exit 0 "" ""
      else if k = 2 then ExecOutcome.exit 1 "" "npm broke"
      else ExecOutcome.procError "recovery failed")
    ⟨"/var/www/demo", "demo", asciiBytes "s3cr3t", "main"⟩
    "Command failed with code 1: npm broke"
    ⟨3, [Cmd.gitFetch, Cmd.gitReset "main", Cmd.npmInstall]⟩
    rfl rfl rfl (by decide)).1

/-- Claim C6: When the project is configured, its directory exists, the manifest
(if present) parses, and every subprocess succeeds, the pipeline runs fetch,
reset to the requested branch, install, the build step exactly when the
manifest declares one, then the pm2 restart — in that order — and returns
the confirmation naming the project. -/
theorem pipeline_success_sequence (projects : String → Option ProjectConfig)
    (name branch : String) (fsEnv : FsEnv) (exe : Nat → ExecOutcome)
    (cfg : ProjectConfig) (hb : Bool)
    (hlook : projects name = some cfg)
    (hdir : fsEnv.dirExists = true)
    (hman : fsEnv.manifestExists = true → fsEnv.manifestHasBuild = Except.ok hb)
    (hok : ∀ k, ∃ s, execPromise (exe k) = Except.ok s) :
    deployProject projects name branch fsEnv exe =
      (Except.ok ("Successfully deployed " ++ name),
       [Cmd.gitFetch, Cmd.gitReset branch, Cmd.npmInstall] ++
         (if fsEnv.manifestExists && hb then [Cmd.npmBuild] else []) ++
         [Cmd.pm2Restart cfg.pm2Name]) := by
  obtain ⟨s0, h0⟩ := hok 0
  obtain ⟨s1, h1⟩ := hok 1
  obtain ⟨s2, h2⟩ := hok 2
  obtain ⟨s3, h3⟩ := hok 3
  obtain ⟨s4, h4⟩ := hok 4
  cases hman2 : fsEnv.manifestExists with
  | true =>
    have hbuild := hman hman2
    cases hb with
    | true =>
      simp [deployProject, deployTryBody, runCmd, hlook, hdir, hman2, hbuild,
        h0, h1, h2, h3, h4]
    | false =>
      simp [deployProject, deployTryBody, runCmd, hlook, hdir, hman2, hbuild,
        h0, h1, h2, h3]
  | false =>
    simp [deployProject, deployTryBody, runCmd, hlook, hdir, hman2,
      h0, h1, h2, h3]

/-- Claim C6 witness: a project with a manifest that declares a build step deploys
with all five commands in order. -/
theorem pipeline_success_sequence_witness :
    deployProject
      (fun n => if n = "demo" then
        some ⟨"/var/www/demo", "demo", asciiBytes "s3cr3t", "main"⟩ else none)
      "demo" "main" ⟨true, true, Except.ok true⟩
      (fun _ => ExecOutcome.exit 0 "ok" "") =
      (Except.ok "Successfully deployed demo",
       [Cmd.gitFetch, Cmd.gitReset "main", Cmd.npmInstall, Cmd.npmBuild,
        Cmd.pm2Restart "demo"]) :=
  pipeline_success_sequence
    (fun n => if n = "demo" then
      some ⟨"/var/www/demo", "demo", asciiBytes "s3cr3t", "main"⟩ else none)
    "demo" "main" ⟨true, true, Except.ok true⟩
    (fun _ => ExecOutcome.exit 0 "ok" "")
    ⟨"/var/www/demo", "demo", asciiBytes "s3cr3t", "main"⟩ true
    rfl rfl (fun _ => rfl) (fun _ => ⟨"ok", rfl⟩)

/-- For any authenticated request whose effective branch differs from the
configured branch, the handler answers 200 with the no-op message, leaves the
lock untouched, and invokes no subprocess. -/
theorem handleDeploy_branch_mismatch (projects : String → Option ProjectConfig)
    (lock0 : Bool) (req : DeployRequest) (fsEnv : FsEnv)
    (exe : Nat → ExecOutcome) (project : ProjectConfig)
    (hlook : projects req.projectName = some project)
    (hf : jsFalsyHeader req.sigHeader = false)
    (hv : verifySignature (hmacPayload req.body) req.sigHeader project.secret = true)
    (hbr : effectiveBranch (jsRef req.body) project.branch ≠ project.branch) :
    handleDeploy projects lock0 req fsEnv exe =
      ⟨200,
       RespBody.message ("Ignoring deployment: branch " ++
         effectiveBranch (jsRef req.body) project.branch ++ " != " ++
         project.branch),
       lock0, [Event.sigCheck]⟩ := by
  unfold handleDeploy
  rw [hlook]
  simp [hf, hv, hbr]


/-- Claim C7 counterexample: For the authenticated request whose `ref` is
`a/refs/heads/b`, the effective branch the handler derives is `a/b` (the message names
it), while stripping a leading `refs/heads/` prefix would leave
`a/refs/heads/b` unchanged — so the description of the branch
derivation in the claim is false on the code. -/
theorem branch_strip_counterexample :
    handleDeploy projectsDemo false nestedRefReq fsQuiet exeQuiet =
      ⟨200, RespBody.message "Ignoring deployment: branch a/b != main", false,
       [Event.sigCheck]⟩ ∧
    effectiveBranch (jsRef nestedRefBody) "main" = "a/b" ∧
    effectiveBranch (jsRef nestedRefBody) "main" ≠
      stripHeadsLeading "a/refs/heads/b" := by
  have hf : jsFalsyHeader nestedRefReq.sigHeader = false := by
    obtain ⟨t, ht⟩ := expectedSignature_cons (asciiBytes "s3cr3t") (hmacPayload nestedRefBody)
    show jsFalsyHeader (HeaderVal.str
      (expectedSignatureBytes (asciiBytes "s3cr3t") (hmacPayload nestedRefBody))) = false
    rw [ht]
    rfl
  have hv : verifySignature (hmacPayload nestedRefReq.body) nestedRefReq.sigHeader
      demoConfig.secret = true :=
    verifySignature_expected_true (hmacPayload nestedRefBody) (asciiBytes "s3cr3t")
  have h := handleDeploy_branch_mismatch projectsDemo false nestedRefReq fsQuiet
    exeQuiet demoConfig rfl hf hv (by decide)
  refine ⟨?_, by decide, by decide⟩
  rw [h]
  rfl

/-- Claim C7 as amended: For every authenticated request, the effective branch is
the `ref` field of the body with the first occurrence of `refs/heads/`
removed (the configured branch when `ref` is absent or empty); whenever the
effective branch differs from the configured branch, the handler responds
200 with the no-op message naming the effective branch and no subprocess is
invoked. -/
theorem branch_mismatch_noop (projects : String → Option ProjectConfig)
    (lock0 : Bool) (req : DeployRequest) (fsEnv : FsEnv)
    (exe : Nat → ExecOutcome) (project : ProjectConfig)
    (hlook : projects req.projectName = some project)
    (hf : jsFalsyHeader req.sigHeader = false)
    (hv : verifySignature (hmacPayload req.body) req.sigHeader project.secret = true)
    (hbr : effectiveBranch (jsRef req.body) project.branch ≠ project.branch) :
    handleDeploy projects lock0 req fsEnv exe =
      ⟨200,
       RespBody.message ("Ignoring deployment: branch " ++
         effectiveBranch (jsRef req.body) project.branch ++ " != " ++
         project.branch),
       lock0, [Event.sigCheck]⟩ ∧
    (∀ c, Event.exec c ∉ (handleDeploy projects lock0 req fsEnv exe).events) := by
  have h := handleDeploy_branch_mismatch projects lock0 req fsEnv exe project
    hlook hf hv hbr
  refine ⟨h, ?_⟩
  rw [h]
  intro c hc
  simp at hc


/-- Claim C7 witness: an authenticated push to `refs/heads/feature-x` against the
`main`-configured project is a 200 no-op with no subprocess. -/
theorem branch_mismatch_noop_witness :
    handleDeploy projectsDemo false featureReq fsQuiet exeQuiet =
      ⟨200, RespBody.message "Ignoring deployment: branch feature-x != main",
       false, [Event.sigCheck]⟩ := by
  have hf : jsFalsyHeader featureReq.sigHeader = false := by
    obtain ⟨t, ht⟩ := expectedSignature_cons (asciiBytes "s3cr3t") (hmacPayload featureBody)
    show jsFalsyHeader (HeaderVal.str
      (expectedSignatureBytes (asciiBytes "s3cr3t") (hmacPayload featureBody))) = false
    rw [ht]
    rfl
  have hv : verifySignature (hmacPayload featureReq.body) featureReq.sigHeader
      demoConfig.secret = true :=
    verifySignature_expected_true (hmacPayload featureBody) (asciiBytes "s3cr3t")
  have h := (branch_mismatch_noop projectsDemo false featureReq fsQuiet exeQuiet
    demoConfig rfl hf hv (by decide)).1
  rw [h]
  rfl

/-- Removing the first occurrence of a nonempty pattern shortens a list that
contains at least one occurrence. -/
theorem replaceFirst_length_lt (pat : List Char) (hpat : pat ≠ []) :
    ∀ s : List Char, 1 ≤ countOccur pat s →
      (replaceFirstChars pat [] s).length < s.length := by
  intro s
  induction s with
  | nil => intro hocc; simp [countOccur] at hocc
  | cons c rest ih =>
    intro hocc
    by_cases hp : pat.isPrefixOf (c :: rest)
    · have h1 : 1 ≤ pat.length := List.length_pos.mpr hpat
      simp only [replaceFirstChars, hp, if_true, List.nil_append, List.length_drop]
      simp only [List.length_cons]
      omega
    · have h2 : 1 ≤ countOccur pat rest := by
        simpa [countOccur, hp] using hocc
      simp only [replaceFirstChars, hp, if_false, List.length_cons]
      exact Nat.succ_lt_succ (ih h2)

/-- Claim C10 counterexample: For the ref `refs/heads/refs/heads/x`, the
substring `refs/heads/` occurs twice (not "exactly once as a leading
prefix"), yet the effective branch the code derives coincides with the
leading-prefix strip — refuting the universal statement of the claim that
for every such ref the results differ. -/
theorem replace_semantics_counterexample :
    countOccur "refs/heads/".data "refs/heads/refs/heads/x".data = 2 ∧
    effectiveBranch (some "refs/heads/refs/heads/x") "main" =
      stripHeadsLeading "refs/heads/refs/heads/x" :=
  ⟨by decide, by decide⟩

/-- Claim C10 as amended: The branch derivation removes only the first occurrence
of the substring `refs/heads/` anywhere in the ref: when the substring
occurs but not as a leading prefix, the result differs from a leading-prefix
strip (e.g. `a/refs/heads/b` yields `a/b`); when it occurs as a leading
prefix the removed occurrence is the leading one, so
`refs/heads/refs/heads/x` yields `refs/heads/x`. -/
theorem replace_first_occurrence :
    (∀ (r cfgB : String), r ≠ "" →
       1 ≤ countOccur "refs/heads/".data r.data →
       ¬ "refs/heads/".data.isPrefixOf r.data →
       effectiveBranch (some r) cfgB ≠ stripHeadsLeading r) ∧
    effectiveBranch (some "a/refs/heads/b") "main" = "a/b" ∧
    effectiveBranch (some "refs/heads/refs/heads/x") "main" = "refs/heads/x" := by
  refine ⟨?_, by decide, by decide⟩
  intro r cfgB hr hocc hnp
  have hstr : stripHeadsLeading r = r := by
    simp [stripHeadsLeading, hnp]
  rw [hstr]
  simp only [effectiveBranch, if_neg hr]
  intro he
  have hlt := replaceFirst_length_lt "refs/heads/".data (by decide) r.data hocc
  have hdata : (replaceFirstChars "refs/heads/".data [] r.data).length = r.data.length := by
    have := congrArg (fun s => s.data.length) he
    simpa [jsReplaceFirst] using this
  omega

/-- Claim C10 witness: `a/refs/heads/b` contains the substring but not as a
prefix, and the derivation in the code differs from the prefix strip there. -/
theorem replace_first_occurrence_witness :
    effectiveBranch (some "a/refs/heads/b") "main" ≠
      stripHeadsLeading "a/refs/heads/b" :=
  replace_first_occurrence.1 "a/refs/heads/b" "main" (by decide) (by decide)
    (by decide)
